import Mathlib

/-!
Shallow embedding of the loan-query core of `HyugaDev/llm_loan_query_system`:

* `src/agents/query_agent.py` — `_parse_filters` and `_build_pipeline`, the
  rule-based translator from a natural-language query to a filter map or a
  MongoDB-style aggregation pipeline.  The four `re.search` calls are embedded
  as specialised searchers that replicate the Python leftmost-match semantics
  (including the backtracking actually reachable for those four patterns).
* `src/db/mock_db.py` — `LoanDatabase.find` and `LoanDatabase.aggregate`.
  `aggregate` builds a pandas `DataFrame` and runs `$match` stages as boolean
  masks and `$group` stages as `groupby(...).agg(**kwargs)`; the embedding
  models the pandas operations actually invoked, including the exceptions they
  raise (`KeyError` for labels absent from the columns, `TypeError` for
  invalid comparisons / non-tuple named-aggregation kwargs).
-/

namespace LoanQuery

/-- Python `\s` (ASCII range; queries in this system are ASCII). -/
def isSpacePy (c : Char) : Bool :=
  c = ' ' || c = '\t' || c = '\n' || c = '\x0d' || c = '\x0b' || c = '\x0c'

/-- Python `\w` (ASCII range): alphanumeric or underscore. -/
def isWordPy (c : Char) : Bool :=
  c.isAlphanum || c = '_'

/-- The character class `[A-Z]`. -/
def isUpperAZ (c : Char) : Bool :=
  'A' ≤ c && c ≤ 'Z'

/-- The character class `[A-Za-z\s]` used by the user-name pattern. -/
def isNameClass (c : Char) : Bool :=
  c.isAlpha || isSpacePy c

/-- Python `str.strip()`: drop leading and trailing whitespace. -/
def pyStrip (l : List Char) : List Char :=
  ((l.dropWhile isSpacePy).reverse.dropWhile isSpacePy).reverse

/-- Python `str.capitalize()`: first character upper-cased, the rest lower-cased. -/
def pyCapitalize (l : List Char) : List Char :=
  match l with
  | [] => []
  | c :: rest => c.toUpper :: rest.map Char.toLower

/-- Substring test via prefix checks at each suffix (Python `in` on strings). -/
def hasSub (pat : List Char) : List Char → Bool
  | [] => pat.isEmpty
  | c :: rest => pat.isPrefixOf (c :: rest) || hasSub pat rest

/-- Python `sub in query_string.lower()`. -/
def containsLower (q : String) (sub : String) : Bool :=
  hasSub sub.data (q.data.map Char.toLower)

/-! ### `re.search(r"in\s+(\w+)\s+region", q, re.IGNORECASE)`

`\s` and `\w` are disjoint and `region` starts with a word character, so the
greedy quantifiers allow no backtracking: each run is the maximal run. -/

/-- Attempt the region pattern at the head of `l`; returns the `(\w+)` capture. -/
def matchRegionAt (l : List Char) : Option (List Char) :=
  match l with
  | c1 :: c2 :: rest =>
    if c1.toLower = 'i' && c2.toLower = 'n' then
      let sp := rest.takeWhile isSpacePy
      let r1 := rest.dropWhile isSpacePy
      if sp.isEmpty then none else
      let w := r1.takeWhile isWordPy
      let r2 := r1.dropWhile isWordPy
      if w.isEmpty then none else
      let sp2 := r2.takeWhile isSpacePy
      let r3 := r2.dropWhile isSpacePy
      if sp2.isEmpty then none else
      if (r3.take 6).map Char.toLower = ['r', 'e', 'g', 'i', 'o', 'n'] then some w
      else none
    else none
  | _ => none

/-- Leftmost match of the region pattern (Python `re.search`). -/
def searchRegion : List Char → Option (List Char)
  | [] => none
  | c :: rest =>
    match matchRegionAt (c :: rest) with
    | some w => some w
    | none => searchRegion rest

/-! ### `re.search(r"in\s+([A-Z]{3})", q)` (case-sensitive) -/

/-- Attempt the currency pattern at the head of `l`; returns the 3-letter capture. -/
def matchCurrencyAt (l : List Char) : Option (List Char) :=
  match l with
  | 'i' :: 'n' :: rest =>
    let sp := rest.takeWhile isSpacePy
    if sp.isEmpty then none else
    match rest.dropWhile isSpacePy with
    | a :: b :: c :: _ =>
      if isUpperAZ a && isUpperAZ b && isUpperAZ c then some [a, b, c] else none
    | _ => none
  | _ => none

/-- Leftmost match of the currency pattern. -/
def searchCurrency : List Char → Option (List Char)
  | [] => none
  | c :: rest =>
    match matchCurrencyAt (c :: rest) with
    | some w => some w
    | none => searchCurrency rest

/-! ### `re.search(r"(before|after)\s+(\d{4})", q, re.IGNORECASE)`

The two alternatives differ in their first letter, so at any one position at
most one of them can match; `\s+` is maximal because `\d` is not whitespace. -/

/-- After the keyword: `\s+` then four digits.  `b = true` means `before`. -/
def matchDateDigits (l : List Char) (b : Bool) : Option (Bool × List Char) :=
  let sp := l.takeWhile isSpacePy
  if sp.isEmpty then none else
  match l.dropWhile isSpacePy with
  | d1 :: d2 :: d3 :: d4 :: _ =>
    if d1.isDigit && d2.isDigit && d3.isDigit && d4.isDigit then
      some (b, [d1, d2, d3, d4])
    else none
  | _ => none

/-- Attempt the date pattern at the head of `l`. -/
def matchDateAt (l : List Char) : Option (Bool × List Char) :=
  if (l.take 6).map Char.toLower = ['b', 'e', 'f', 'o', 'r', 'e'] then
    matchDateDigits (l.drop 6) true
  else if (l.take 5).map Char.toLower = ['a', 'f', 't', 'e', 'r'] then
    matchDateDigits (l.drop 5) false
  else none

/-- Leftmost match of the date pattern. -/
def searchDate : List Char → Option (Bool × List Char)
  | [] => none
  | c :: rest =>
    match matchDateAt (c :: rest) with
    | some w => some w
    | none => searchDate rest

/-- Python `int(...)` on the four captured digit characters. -/
def digitsToNat (l : List Char) : Nat :=
  l.foldl (fun acc c => acc * 10 + (c.toNat - 48)) 0

/-! ### `re.search(r"for\s+([A-Za-z\s]+)(?:\?|$|\s)", q)`

Here backtracking is real: `\s+` and `([A-Za-z\s]+)` overlap on whitespace and
the terminator alternation can consume a character the greedy group gave back.
Python tries the largest `\s+` run first, then the largest group, then the
terminator alternatives; the embedding replicates exactly that search order
with two descending loops. -/

/-- Terminator `(?:\?|$|\s)` test at a suffix. -/
def unameTermOk : List Char → Bool
  | [] => true
  | c :: _ => c = '?' || isSpacePy c

/-- Try group lengths `g, g-1, ..., 1` over the class run `s`; the capture is
`s.take g` for the first `g` whose terminator position succeeds. -/
def unameTryGroup (s : List Char) : Nat → Option (List Char)
  | 0 => none
  | g + 1 =>
    if unameTermOk (s.drop (g + 1)) then some (s.take (g + 1))
    else unameTryGroup s g

/-- Try `\s+` lengths `j, j-1, ..., 1` over the post-`for` suffix `s`. -/
def unameTryWs (s : List Char) : Nat → Option (List Char)
  | 0 => none
  | j + 1 =>
    let region := s.drop (j + 1)
    let m := (region.takeWhile isNameClass).length
    match unameTryGroup region m with
    | some cap => some cap
    | none => unameTryWs s j

/-- Attempt the user-name pattern right after a literal `for`. -/
def matchUnameAfterFor (s : List Char) : Option (List Char) :=
  let a := (s.takeWhile isSpacePy).length
  unameTryWs s a

/-- Attempt the user-name pattern at the head of `l`. -/
def matchUnameAt (l : List Char) : Option (List Char) :=
  match l with
  | 'f' :: 'o' :: 'r' :: s => matchUnameAfterFor s
  | _ => none

/-- Leftmost match of the user-name pattern. -/
def searchUname : List Char → Option (List Char)
  | [] => none
  | c :: rest =>
    match matchUnameAt (c :: rest) with
    | some w => some w
    | none => searchUname rest

end LoanQuery

namespace LoanQuery

/-! ## Scalar values and records

`Value` covers the scalars held by loan records and filters: strings and
numbers (Python ints/floats; modelled as exact rationals). -/

inductive Value where
  | vStr (s : String)
  | vNum (q : ℚ)
deriving DecidableEq, Repr

/-- One loan record: a field-name → scalar mapping (Python dict, insertion
order preserved, keys unique). -/
abbrev Record := List (String × Value)

/-! ## `QueryAgent._parse_filters` -/

/-- Embeds `QueryAgent._parse_filters`: the filter dict in its Python
insertion order `user_name`, `region`, `currency`, `sex`. -/
def parseFilters (q : String) : List (String × String) :=
  (match searchUname q.data with
   | some g => [("user_name", String.mk (pyStrip g))]
   | none => []) ++
  (match searchRegion q.data with
   | some w => [("region", String.mk (pyCapitalize w))]
   | none => []) ++
  (match searchCurrency q.data with
   | some w => [("currency", String.mk (w.map Char.toUpper))]
   | none => []) ++
  (if containsLower q "women" || containsLower q "female" then [("sex", "Female")]
   else if containsLower q "men" || containsLower q "male" then [("sex", "Male")]
   else [])

/-! ## `QueryAgent._build_pipeline` -/

/-- A `$group` `_id`: Python `None`, a plain field name, or a dict of
output-key → `"$field"` expressions. -/
inductive GroupId where
  | gnone
  | gfield (f : String)
  | gcomp (l : List (String × String))
deriving DecidableEq, Repr

/-- The value of an aggregate-operator entry: the literal `1` or a `"$field"`
string. -/
inductive FieldExpr where
  | lit (n : Int)
  | fref (s : String)
deriving DecidableEq, Repr

/-- A pipeline stage: the `{"$match": ...}`, `{"$group": ...}` and
`{"$project": ...}` dicts of the source.  A match condition is either a bare
scalar (implicit equality) or an operator dict. -/
inductive MCond where
  | eqv (v : Value)
  | ops (l : List (String × Value))
deriving DecidableEq, Repr

inductive Stage where
  | sMatch (conds : List (String × MCond))
  | sGroup (gid : GroupId) (aggs : List (String × List (String × FieldExpr)))
  | sProject (fields : List (String × Int))
deriving DecidableEq, Repr

/-- The `match_stage["$match"]` dict built by `_build_pipeline`, in its Python
insertion order `region`, `currency`, `sex`, `disbursed_date`. -/
def matchConds (q : String) : List (String × MCond) :=
  (match searchRegion q.data with
   | some w => [("region", MCond.eqv (Value.vStr (String.mk (pyCapitalize w))))]
   | none => []) ++
  (match searchCurrency q.data with
   | some w => [("currency", MCond.eqv (Value.vStr (String.mk (w.map Char.toUpper))))]
   | none => []) ++
  (if containsLower q "women" || containsLower q "female" then
     [("sex", MCond.eqv (Value.vStr "Female"))]
   else if containsLower q "men" || containsLower q "male" then
     [("sex", MCond.eqv (Value.vStr "Male"))]
   else []) ++
  (match searchDate q.data with
   | some (b, ds) =>
     [("disbursed_date",
       MCond.ops [(if b then "$lt" else "$gte",
                   Value.vStr (toString (digitsToNat ds) ++ "-01-01"))])]
   | none => [])

/-- The `average`/`avg` group stage. -/
def avgStage : Stage :=
  .sGroup .gnone [("average_loan", [("$avg", .fref "$loan_amount")])]

/-- The `total`/`sum` group stage (`pending` switches the summed field). -/
def sumStage (q : String) : Stage :=
  let fieldName := if containsLower q "pending" then "pending" else "loan_amount"
  .sGroup .gnone [("total_amount", [("$sum", .fref ("$" ++ fieldName))])]

/-- The composite `_id` dict of the `group` branch. -/
def groupFields (q : String) : List (String × String) :=
  (if containsLower q "region" then [("region", "$region")] else []) ++
  (if containsLower q "gender" || containsLower q "sex" then [("sex", "$sex")] else [])

/-- The `group` branch's stage, for a non-empty field dict. -/
def groupByStage (gf : List (String × String)) : Stage :=
  .sGroup (.gcomp gf)
    [("total_amount", [("$sum", .fref "$loan_amount")]),
     ("count", [("$sum", .lit 1)])]

/-- The default counting group stage. -/
def countStage : Stage :=
  .sGroup .gnone [("count", [("$sum", .lit 1)])]

/-- Python `"$match" in pipeline[0]` for a one-element pipeline. -/
def headIsMatch : List Stage → Bool
  | .sMatch _ :: _ => true
  | _ => false

/-- The `pipeline` local of `_build_pipeline` after the match-stage step:
the match stage is appended only when its condition dict is non-empty. -/
def basePipeline (q : String) : List Stage :=
  if (matchConds q).isEmpty then [] else [.sMatch (matchConds q)]

/-- The `pipeline` local after the `average`/`total`/`group` branch chain. -/
def pipelineBeforeDefault (q : String) : List Stage :=
  if containsLower q "average" || containsLower q "avg" then
    basePipeline q ++ [avgStage]
  else if containsLower q "total" || containsLower q "sum" then
    basePipeline q ++ [sumStage q]
  else if containsLower q "group" then
    if (groupFields q).isEmpty then basePipeline q
    else basePipeline q ++ [groupByStage (groupFields q)]
  else basePipeline q

/-- Embeds `QueryAgent._build_pipeline`: the default count stage is appended
when no aggregation was identified. -/
def buildPipeline (q : String) : List Stage :=
  let p1 := pipelineBeforeDefault q
  if p1.length = 0 || (p1.length = 1 && headIsMatch p1) then p1 ++ [countStage]
  else p1

end LoanQuery

namespace LoanQuery

/-! ## `LoanDatabase.find` -/

/-- First-match association lookup (Python dict read; keys are unique). -/
def rlookup (r : Record) (k : String) : Option Value :=
  match r with
  | [] => none
  | (k', v) :: rest => if k' = k then some v else rlookup rest k

/-- The inner loop of `LoanDatabase.find`: `match` stays `True` iff every
filter key is present on the record with exactly the filter's value. -/
def recMatches (r : Record) : List (String × Value) → Bool
  | [] => true
  | (k, v) :: rest =>
    match rlookup r k with
    | none => false
    | some w => if w = v then recMatches r rest else false

/-- Embeds `LoanDatabase.find` (with a filter dict supplied, as
`_find_loans` always does). -/
def find (data : List Record) (filterMap : List (String × Value)) : List Record :=
  data.filter (fun r => recMatches r filterMap)

/-! ## `LoanDatabase.aggregate` — pandas model

The source converts the record list to a `pandas.DataFrame` and executes
match stages as boolean-mask filters and group stages as
`groupby(cols).agg(**kwargs)`.  The embedding tracks the column index (the
union of record keys in first-appearance order) because pandas raises
`KeyError` for any label absent from it. -/

/-- The pandas exceptions reachable through `aggregate`. -/
inductive PdError where
  /-- The failure of `df.groupby(cols)` when `None` is among the keys:
  `None` is not a column label, and no pandas version produces a grouping for
  it.  The precise Python exception class varies across versions (a
  label-lookup `KeyError(None)` in some, a `TypeError` out of
  `Index.map(None)` in others, and over an empty frame the failure can
  surface only at the following `.agg` call); the embedding surfaces the
  failure at the groupby step under this one constructor. -/
  | groupKeyNone
  /-- Python `KeyError(label)` for a string label absent from the columns. -/
  | keyError (label : String)
  /-- Python `TypeError` — invalid comparison, or a non-tuple named-aggregation kwarg. -/
  | typeError
  /-- Python `AttributeError` — an aggregation-function string pandas cannot resolve. -/
  | attrError (name : String)
deriving DecidableEq, Repr

/-- A DataFrame: its column labels plus its rows. -/
structure DFrame where
  cols : List String
  rows : List Record
deriving DecidableEq

/-- Column labels of `pd.DataFrame(data)`: union of the record keys in
first-appearance order. -/
def collectCols (data : List Record) : List String :=
  data.foldl (fun acc r => r.foldl
    (fun acc2 kv => if kv.1 ∈ acc2 then acc2 else acc2 ++ [kv.1]) acc) []

/-- Builds `pd.DataFrame(data)`. -/
def mkDF (data : List Record) : DFrame :=
  ⟨collectCols data, data⟩

/-- Cell test of `df[df[f] == v]`: a missing cell (`NaN`) compares unequal;
equality between different types is `False`, never an error. -/
def cellEq (r : Record) (f : String) (v : Value) : Bool :=
  match rlookup r f with
  | some w => w = v
  | none => false

/-- One ordering-comparison cell test (`>`/`>=`/`<`/`<=`): `NaN` yields
`False`; comparing a string cell with a number (or vice versa) raises
`TypeError`, as pandas does for the homogeneous columns this dataset has. -/
def cellCmp (r : Record) (f : String) (keep : Ordering → Bool) (v : Value) :
    Except PdError Bool :=
  match rlookup r f with
  | none => .ok false
  | some (Value.vNum a) =>
    match v with
    | Value.vNum b => .ok (keep (compare a b))
    | Value.vStr _ => .error .typeError
  | some (Value.vStr a) =>
    match v with
    | Value.vStr b => .ok (keep (compare a b))
    | Value.vNum _ => .error .typeError

/-- Row filtering that can raise (ordering comparisons). -/
def filterRows (f : String) (keep : Ordering → Bool) (v : Value) :
    List Record → Except PdError (List Record)
  | [] => .ok []
  | r :: rest => do
    let b ← cellCmp r f keep v
    let tail ← filterRows f keep v rest
    .ok (if b then r :: tail else tail)

/-- Embeds `result = result[result[f] == v]`. -/
def filterEq (df : DFrame) (f : String) (v : Value) : Except PdError DFrame :=
  if f ∈ df.cols then .ok ⟨df.cols, df.rows.filter (fun r => cellEq r f v)⟩
  else .error (.keyError f)

/-- Embeds `result = result[result[f] <op> v]` for an ordering operator. -/
def filterCmp (df : DFrame) (f : String) (keep : Ordering → Bool) (v : Value) :
    Except PdError DFrame := do
  if f ∈ df.cols then
    let rows ← filterRows f keep v df.rows
    .ok ⟨df.cols, rows⟩
  else .error (.keyError f)

/-- The inner operator loop of the `$match` branch: recognised operators
filter; an unrecognised operator symbol matches no branch and leaves
`result` untouched. -/
def applyOps (df : DFrame) (f : String) : List (String × Value) → Except PdError DFrame
  | [] => .ok df
  | (op, v) :: rest => do
    let df' ←
      if op = "$eq" then filterEq df f v
      else if op = "$gt" then filterCmp df f (fun o => o = .gt) v
      else if op = "$gte" then filterCmp df f (fun o => o ≠ .lt) v
      else if op = "$lt" then filterCmp df f (fun o => o = .lt) v
      else if op = "$lte" then filterCmp df f (fun o => o ≠ .gt) v
      else .ok df
    applyOps df' f rest

/-- One `(field, condition)` entry of a `$match` dict. -/
def applyCond (df : DFrame) (f : String) : MCond → Except PdError DFrame
  | .eqv v => filterEq df f v
  | .ops l => applyOps df f l

/-- The `$match` stage: conditions applied in dict order. -/
def applyMatch (df : DFrame) : List (String × MCond) → Except PdError DFrame
  | [] => .ok df
  | (f, c) :: rest => do
    let df' ← applyCond df f c
    applyMatch df' rest

end LoanQuery

namespace LoanQuery

/-! ### The `$group` stage: `result.groupby(group_cols).agg(**agg_dict)` -/

/-- Computes `group_cols`: `list(group_by.values())` for a dict `_id`, else the single
`_id` itself (`none` models Python `None`). -/
def resolveGroupCols : GroupId → List (Option String)
  | .gnone => [none]
  | .gfield f => [some f]
  | .gcomp l => l.map (fun p => some p.2)

/-- Label validation of `df.groupby(group_cols)`: `None` fails (see
`PdError.groupKeyNone`) and any string label absent from the columns raises
`KeyError(label)`; keys are checked left-to-right. -/
def checkGroupCols (cols : List String) : List (Option String) → Except PdError (List String)
  | [] => .ok []
  | none :: _ => .error .groupKeyNone
  | some c :: rest =>
    if c ∈ cols then do
      let r ← checkGroupCols cols rest
      .ok (c :: r)
    else .error (.keyError c)

/-- A value of the Python `agg_dict`: the bare string `"count"` (written for
`{"$sum": 1}`) or the pair `(first, second)` that pandas reads as
`NamedAgg(column=first, aggfunc=second)`. -/
inductive AggVal where
  | sCount
  | tup (first : String) (second : FieldExpr)
deriving DecidableEq, Repr

/-- Python dict assignment `d[k] = v`: replace in place or append. -/
def assocSet : List (String × AggVal) → String → AggVal → List (String × AggVal)
  | [], k, v => [(k, v)]
  | (k', v') :: rest, k, v =>
    if k' = k then (k, v) :: rest else (k', v') :: assocSet rest k v

/-- The `agg_dict` loop of the `$group` branch: `$sum` of the literal `1`
stores `"count"`, `$sum` of anything else stores `("sum", expr)`, `$avg`
stores `("mean", expr)`, and an unrecognised operator stores nothing. -/
def buildAggDict (aggs : List (String × List (String × FieldExpr))) :
    List (String × AggVal) :=
  aggs.foldl (fun acc p =>
    p.2.foldl (fun acc2 q =>
      if q.1 = "$sum" then
        if q.2 = FieldExpr.lit 1 then assocSet acc2 p.1 .sCount
        else assocSet acc2 p.1 (.tup "sum" q.2)
      else if q.1 = "$avg" then assocSet acc2 p.1 (.tup "mean" q.2)
      else acc2) acc) []

/-- pandas named-aggregation normalisation: every kwarg value must be a
`(column, aggfunc)` tuple; a bare string raises `TypeError`. -/
def aggAllTuples : List (String × AggVal) → Bool
  | [] => true
  | (_, .sCount) :: _ => false
  | _ :: rest => aggAllTuples rest

/-- pandas named-aggregation column check: the `column` part of each tuple
must be an existing column. -/
def checkAggCols (cols : List String) : List (String × AggVal) → Except PdError Unit
  | [] => .ok ()
  | (_, .sCount) :: rest => checkAggCols cols rest
  | (_, .tup first _) :: rest =>
    if first ∈ cols then checkAggCols cols rest else .error (.keyError first)

/-- Aggregation-function strings pandas resolves on a grouped column here. -/
def validAggFunc (s : String) : Bool :=
  s = "sum" || s = "mean" || s = "count"

/-- pandas aggfunc resolution: a non-string (the interpreter can only put an
int literal there) raises `TypeError`; an unresolvable string such as
`"$loan_amount"` raises `AttributeError`. -/
def checkAggFuncs : List (String × AggVal) → Except PdError Unit
  | [] => .ok ()
  | (_, .sCount) :: rest => checkAggFuncs rest
  | (_, .tup _ (.lit _)) :: rest => checkAggFuncs rest
  | (_, .tup _ (.fref fn)) :: rest =>
    if validAggFunc fn then checkAggFuncs rest else .error (.attrError fn)

/-- The cells of one column over a row group (`none` is `NaN`). -/
def colCells (rows : List Record) (c : String) : List (Option Value) :=
  rows.map (fun r => rlookup r c)

/-- pandas `sum` over a column: skips `NaN`; an all-numeric column sums, an
all-string column concatenates, a mixed column raises `TypeError`; an empty
column sums to `0`. -/
def aggSum (cells : List (Option Value)) : Except PdError Value :=
  (cells.filterMap id).foldlM (fun acc v =>
    match acc, v with
    | Value.vNum a, Value.vNum b => .ok (Value.vNum (a + b))
    | Value.vStr a, Value.vStr b => .ok (Value.vStr (a ++ b))
    | Value.vNum a, Value.vStr b =>
      if a = 0 then .ok (Value.vStr b) else .error .typeError
    | Value.vStr _, Value.vNum _ => .error .typeError) (Value.vNum 0)

/-- pandas `mean` over a column: numeric only, skips `NaN`.  (A group whose
column is entirely `NaN` yields `NaN` in pandas; that corner is unreachable
from this system pipelines and is rendered as `0`.) -/
def aggMean (cells : List (Option Value)) : Except PdError Value := do
  let present := cells.filterMap id
  let s ← present.foldlM (fun acc v =>
    match v with
    | Value.vNum b => .ok (acc + b)
    | Value.vStr _ => .error .typeError) (0 : ℚ)
  .ok (Value.vNum (s / present.length))

/-- pandas `count` over a column: the number of non-`NaN` cells. -/
def aggCount (cells : List (Option Value)) : Value :=
  Value.vNum (cells.filterMap id).length

/-- Apply one validated named aggregation to a row group. -/
def applyAgg (rows : List Record) : AggVal → Except PdError Value
  | .sCount => .error .typeError
  | .tup _ (.lit _) => .error .typeError
  | .tup first (.fref fn) =>
    if fn = "sum" then aggSum (colCells rows first)
    else if fn = "mean" then aggMean (colCells rows first)
    else if fn = "count" then .ok (aggCount (colCells rows first))
    else .error (.attrError fn)

/-- The grouping key of a row: its cells at the group columns. -/
def groupKeys (gcols : List String) (r : Record) : List (Option Value) :=
  gcols.map (fun c => rlookup r c)

/-- Distinct group keys, skipping any with a `NaN` component (pandas
`dropna=True`), in first-appearance order.  (pandas sorts group keys; no
claim depends on group order.) -/
def distinctKeys (gcols : List String) (rows : List Record) :
    List (List (Option Value)) :=
  (rows.map (groupKeys gcols)).foldl (fun acc k =>
    if k ∈ acc || k.any (fun o => o.isNone) then acc else acc ++ [k]) []

/-- Embeds `reset_index()`: the group-key columns re-enter the output record. -/
def keyRecord (gcols : List String) (k : List (Option Value)) : Record :=
  (gcols.zip k).filterMap (fun p => p.2.map (fun v => (p.1, v)))

/-- Embeds `result.groupby(group_cols).agg(**agg_dict).reset_index()`. -/
def execGroup (df : DFrame) (gid : GroupId)
    (aggs : List (String × List (String × FieldExpr))) : Except PdError DFrame := do
  let gcols ← checkGroupCols df.cols (resolveGroupCols gid)
  let ad := buildAggDict aggs
  if aggAllTuples ad then do
    checkAggCols df.cols ad
    checkAggFuncs ad
    let outRows ← (distinctKeys gcols df.rows).mapM (fun k => do
      let grp := df.rows.filter (fun r => groupKeys gcols r = k)
      let vals ← ad.mapM (fun p => do
        let v ← applyAgg grp p.2
        pure (p.1, v))
      pure (keyRecord gcols k ++ vals))
    .ok ⟨gcols ++ ad.map (fun p => p.1), outRows⟩
  else .error .typeError

/-! ### Stage dispatch, pipeline run, entry points -/

/-- The `$project` stage: keep the fields marked `1`, in dict order. -/
def execProject (df : DFrame) (fields : List (String × Int)) : Except PdError DFrame :=
  let inc := (fields.filter (fun p => p.2 = 1)).map (fun p => p.1)
  match inc.find? (fun c => !(c ∈ df.cols : Bool)) with
  | some c => .error (.keyError c)
  | none =>
    .ok ⟨inc, df.rows.map (fun r => inc.filterMap (fun c => (rlookup r c).map ((c, ·))))⟩

/-- One stage of `LoanDatabase.aggregate`'s loop. -/
def execStage (df : DFrame) : Stage → Except PdError DFrame
  | .sMatch conds => applyMatch df conds
  | .sGroup gid aggs => execGroup df gid aggs
  | .sProject fields => execProject df fields

/-- The stage loop of `LoanDatabase.aggregate`. -/
def runPipeline (df : DFrame) : List Stage → Except PdError DFrame
  | [] => .ok df
  | s :: rest => do
    let df' ← execStage df s
    runPipeline df' rest

/-- Embeds `LoanDatabase.aggregate`: build the DataFrame, run the stages,
`to_dict('records')` at the end; any pandas exception propagates out of
`aggregate` itself (the tool wrapper `_aggregate_loans` then catches it). -/
def aggregate (data : List Record) (pipeline : List Stage) :
    Except PdError (List Record) :=
  (runPipeline (mkDF data) pipeline).map DFrame.rows

/-- Embeds `_find_loans` minus the JSON formatting: parse filters, run `find`. -/
def translateAndFind (q : String) (data : List Record) : List Record :=
  find data ((parseFilters q).map (fun p => (p.1, Value.vStr p.2)))

/-- Embeds `_aggregate_loans` minus the JSON formatting: build the pipeline, run
`aggregate`. -/
def translateAndAggregate (q : String) (data : List Record) :
    Except PdError (List Record) :=
  aggregate data (buildPipeline q)

/-! ### Stateful view of the database

`LoanDatabase` holds its records in `self.data`; the tool methods read it and
never assign to it.  The stateful wrappers return the post-call state
explicitly so that absence of mutation is a statement, not a convention. -/

structure DBState where
  data : List Record
deriving DecidableEq

/-- Embeds `_find_loans` acting on the database state. -/
def findLoansS (st : DBState) (q : String) : List Record × DBState :=
  (translateAndFind q st.data, st)

/-- Embeds `_aggregate_loans` acting on the database state. -/
def aggregateLoansS (st : DBState) (q : String) :
    Except PdError (List Record) × DBState :=
  (translateAndAggregate q st.data, st)

end LoanQuery

namespace LoanQuery

/-! ## Shared concrete inputs -/

/-- The three-record demonstration store of the C4 scenario. -/
def store4 : List Record :=
  [[("region", .vStr "Central"), ("sex", .vStr "Female"), ("loan_amount", .vNum 22000)],
   [("region", .vStr "Central"), ("sex", .vStr "Male"), ("loan_amount", .vNum 15000)],
   [("region", .vStr "North"), ("sex", .vStr "Female"), ("loan_amount", .vNum 5000)]]

/-! ## Claims -/

/-- C1: the claim says `translateAndAggregate("average loan amount")` on an
empty Record Store yields `[{average_loan: 0}]` without error.  In the code,
the query builds the single stage `{"$group": {"_id": None, "average_loan":
{"$avg": "$loan_amount"}}}`, whose execution raises a pandas exception for
every store — empty or not — (grouping by `None`, and aggregating the
non-existent column `"mean"`, cannot succeed), so the aggregate path errors
instead of producing any record. -/
theorem c1_average_query_raises (data : List Record) :
    ∃ e, translateAndAggregate "average loan amount" data = .error e :=
  ⟨PdError.groupKeyNone, rfl⟩

/-- C2 counterexample: a pipeline whose match stage carries the unknown
operator symbol `$regex` executes without any error and silently skips the
condition — all three records of the store pass through — contradicting the
claim that such a stage raises an `ExecutionError` and is never skipped. -/
theorem c2_unknown_op_is_silently_skipped :
    aggregate store4
      [Stage.sMatch [("region", MCond.ops [("$regex", Value.vStr "Central")])]] =
    .ok store4 := rfl

/-- C3: the claim says a pipeline of the single Group Stage with key none and
aggregate count returns `[{count: N}]` over an N-record store.  In the code
this stage reaches `df.groupby([None]).agg(count="count")`, which raises a
pandas exception for every store (grouping by `None`, and the bare-string
named-aggregation kwarg, cannot succeed), so no count record is ever
produced. -/
theorem c3_count_group_raises (data : List Record) :
    ∃ e, aggregate data [Stage.sGroup .gnone [("count", [("$sum", FieldExpr.lit 1)])]] =
      .error e :=
  ⟨PdError.groupKeyNone, rfl⟩

/-- C4: for the three-record scenario store, `_build_pipeline` does build the
claimed Match Stage `{region: "Central", sex: "Female"}` followed by the
none/sum Group Stage — but executing that pipeline raises a pandas exception
(grouping by `None`, and aggregating the non-existent column `"sum"`, cannot
succeed) instead of returning `[{total_amount: 22000}]`. -/
theorem c4_scenario_pipeline_built_but_execution_raises :
    buildPipeline "total loans for women in Central region" =
      [Stage.sMatch [("region", MCond.eqv (Value.vStr "Central")),
                     ("sex", MCond.eqv (Value.vStr "Female"))],
       Stage.sGroup .gnone [("total_amount", [("$sum", FieldExpr.fref "$loan_amount")])]] ∧
    ∃ e, translateAndAggregate "total loans for women in Central region" store4 =
      .error e :=
  ⟨rfl, PdError.groupKeyNone, rfl⟩

/-- C6 counterexample: on `"loans in USD region"` the code stores BOTH a
region key (value `"Usd"`, from `capitalize`) and a currency key `"USD"`;
the claim that the currency rule cannot fire before the word `region` is
false — the currency pattern has no lookahead excluding `region`. -/
theorem c6_currency_fires_despite_region :
    parseFilters "loans in USD region" = [("region", "Usd"), ("currency", "USD")] := rfl

/-- C7 counterexample: the query `"after 2020 yet before 2023"` contains the
phrase `before 2023`, yet the built pipeline carries only the `$gte`
condition of the leftmost date phrase `after 2020` and no `$lt` condition at
all: only the first `(before|after)\s+(\d{4})` match fires. -/
theorem c7_only_leftmost_date_phrase_fires :
    hasSub "before 2023".data "after 2020 yet before 2023".data = true ∧
    buildPipeline "after 2020 yet before 2023" =
      [Stage.sMatch [("disbursed_date", MCond.ops [("$gte", Value.vStr "2020-01-01")])],
       countStage] :=
  ⟨rfl, rfl⟩

/-- C9: both tool paths are pure reads of the database state: the state after
a call is the state before it, and re-running either path on the post-call
state returns the same output sequence. -/
theorem c9_idempotent_and_read_only (q : String) (st : DBState) :
    (findLoansS st q).2 = st ∧
    (findLoansS (findLoansS st q).2 q).1 = (findLoansS st q).1 ∧
    (aggregateLoansS st q).2 = st ∧
    (aggregateLoansS (aggregateLoansS st q).2 q).1 = (aggregateLoansS st q).1 :=
  ⟨rfl, rfl, rfl, rfl⟩

end LoanQuery

namespace LoanQuery

/-! ## C5: characterisation of `find` -/

/-- Spec-side predicate, in the words of the claim: every key of the filter
map is present on the record with a value exactly equal to the filter value. -/
def specFilterMatch (r : Record) (fl : List (String × Value)) : Prop :=
  ∀ p ∈ fl, rlookup r p.1 = some p.2

instance (r : Record) (fl : List (String × Value)) : Decidable (specFilterMatch r fl) :=
  List.decidableBAll _ fl

/-- The record-matching loop of `find` agrees with the spec predicate. -/
theorem recMatches_eq_spec (r : Record) (fl : List (String × Value)) :
    recMatches r fl = decide (specFilterMatch r fl) := by
  induction fl with
  | nil => simp [recMatches, specFilterMatch]
  | cons p rest ih =>
    obtain ⟨k, v⟩ := p
    cases h : rlookup r k with
    | none =>
      have hns : ¬ specFilterMatch r ((k, v) :: rest) := by
        intro hs
        have := hs (k, v) (List.mem_cons_self _ _)
        simp [h] at this
      simp [recMatches, h, hns]
    | some w =>
      by_cases hw : w = v
      · subst hw
        have hiff : specFilterMatch r ((k, w) :: rest) ↔ specFilterMatch r rest := by
          unfold specFilterMatch
          constructor
          · intro hs p hp
            exact hs p (List.mem_cons_of_mem _ hp)
          · intro hs p hp
            rcases List.mem_cons.mp hp with rfl | hp'
            · simpa using h
            · exact hs p hp'
        simp only [recMatches, h, if_pos rfl]
        rw [ih]
        exact (decide_eq_decide).mpr hiff.symm
      · have hns : ¬ specFilterMatch r ((k, v) :: rest) := by
          intro hs
          have := hs (k, v) (List.mem_cons_self _ _)
          rw [h] at this
          exact hw (Option.some.inj this)
        simp [recMatches, h, hw, hns]

/-- C5: `find` returns exactly the records on which every filter key is
present with an equal value (order and multiplicity preserved), and an empty
filter map returns the whole store; a missing key merely excludes the record
(the function is total — no error path exists). -/
theorem c5_find_characterization :
    (∀ (data : List Record) (fl : List (String × Value)),
      find data fl = data.filter (fun r => decide (specFilterMatch r fl))) ∧
    (∀ data : List Record, find data [] = data) := by
  constructor
  · intro data fl
    unfold find
    exact List.filter_congr (fun r _ => recMatches_eq_spec r fl)
  · intro data
    unfold find
    simp [recMatches]

/-! ## C2 amended: unknown symbols are silently ignored -/

/-- Helper: the operator loop of a match condition leaves the DataFrame
untouched when no entry carries a recognised operator symbol. -/
theorem applyOps_all_unknown (df : DFrame) (f : String) (l : List (String × Value))
    (h : ∀ p ∈ l, p.1 ∉ (["$eq", "$gt", "$gte", "$lt", "$lte"] : List String)) :
    applyOps df f l = .ok df := by
  induction l with
  | nil => rfl
  | cons p rest ih =>
    obtain ⟨op, v⟩ := p
    have hop := h (op, v) (List.mem_cons_self _ _)
    simp only [List.mem_cons, List.mem_singleton, List.not_mem_nil, or_false,
      not_or] at hop
    obtain ⟨h1, h2, h3, h4, h5⟩ := hop
    unfold applyOps
    rw [if_neg h1, if_neg h2, if_neg h3, if_neg h4, if_neg h5]
    exact ih (fun p hp => h p (List.mem_cons_of_mem _ hp))

/-- C2 amended: a match-stage condition whose operator symbols are all
unrecognised is silently skipped — the whole store passes through and no
error of any kind is raised — and an unsupported aggregate-function name
contributes nothing to the pandas aggregation dict.  (No `ExecutionError`
type exists anywhere in the code, and `_aggregate_loans` catches every
exception instead of propagating it.) -/
theorem c2_amended_unknown_symbols_ignored :
    (∀ (data : List Record) (f : String) (l : List (String × Value)),
      (∀ p ∈ l, p.1 ∉ (["$eq", "$gt", "$gte", "$lt", "$lte"] : List String)) →
      aggregate data [Stage.sMatch [(f, MCond.ops l)]] = .ok data) ∧
    (∀ (out op : String) (fe : FieldExpr), op ≠ "$sum" → op ≠ "$avg" →
      buildAggDict [(out, [(op, fe)])] = []) := by
  constructor
  · intro data f l h
    show (runPipeline (mkDF data) [Stage.sMatch [(f, MCond.ops l)]]).map DFrame.rows
        = .ok data
    have hm : execStage (mkDF data) (Stage.sMatch [(f, MCond.ops l)]) = .ok (mkDF data) := by
      show applyMatch (mkDF data) [(f, MCond.ops l)] = .ok (mkDF data)
      simp only [applyMatch, applyCond]
      rw [applyOps_all_unknown (mkDF data) f l h]
      rfl
    unfold runPipeline
    rw [hm]
    rfl
  · intro out op fe h1 h2
    unfold buildAggDict
    simp [h1, h2]

/-- Witness for C2 amended: the `$mod` operator (real in MongoDB, unknown to
this interpreter) filters nothing and raises nothing, and a `$max` aggregate
spec produces an empty aggregation dict. -/
theorem c2_amended_witness :
    aggregate store4
      [Stage.sMatch [("loan_amount", MCond.ops [("$mod", Value.vNum 2)])]] = .ok store4 ∧
    buildAggDict [("total_amount", [("$max", FieldExpr.fref "$loan_amount")])] = [] :=
  ⟨c2_amended_unknown_symbols_ignored.1 store4 "loan_amount"
      [("$mod", Value.vNum 2)] (by decide),
   c2_amended_unknown_symbols_ignored.2 "total_amount" "$max"
      (FieldExpr.fref "$loan_amount") (by decide) (by decide)⟩

/-! ## C6 amended: the region and currency rules are independent -/

/-- C6 amended: the region and currency captures are computed by independent
rules — neither suppresses the other, and the currency pattern has no
lookahead excluding the word `region`.  The `region` key of the filter map is
exactly the capitalised region capture and the `currency` key is exactly the
upper-cased currency capture, whatever the rest of the query contains. -/
theorem c6_amended_rules_independent (q : String) :
    (parseFilters q).lookup "region" =
      (searchRegion q.data).map (fun w => String.mk (pyCapitalize w)) ∧
    (parseFilters q).lookup "currency" =
      (searchCurrency q.data).map (fun w => String.mk (w.map Char.toUpper)) := by
  unfold parseFilters
  rcases hU : searchUname q.data with _ | g <;>
    rcases hR : searchRegion q.data with _ | w <;>
      rcases hC : searchCurrency q.data with _ | cw <;>
        split_ifs <;> exact ⟨rfl, rfl⟩

/-! ## C10: shape of every built pipeline -/

/-- The match-stage step yields an empty pipeline or a single match stage. -/
theorem basePipeline_shape (q : String) :
    basePipeline q = [] ∨ ∃ c, basePipeline q = [Stage.sMatch c] := by
  unfold basePipeline
  split_ifs
  · exact Or.inl rfl
  · exact Or.inr ⟨_, rfl⟩

/-- The aggregation-branch chain either adds nothing or appends exactly one
group stage. -/
theorem pipelineBeforeDefault_shape (q : String) :
    pipelineBeforeDefault q = basePipeline q ∨
    ∃ gid aggs, pipelineBeforeDefault q = basePipeline q ++ [Stage.sGroup gid aggs] := by
  unfold pipelineBeforeDefault
  split_ifs
  · exact Or.inr ⟨_, _, rfl⟩
  · exact Or.inr ⟨_, _, rfl⟩
  · exact Or.inl rfl
  · exact Or.inr ⟨_, _, rfl⟩
  · exact Or.inl rfl

/-- C10: every built pipeline is one or two stages, its last stage is always
a group stage, a match stage (when present) is first, and no pipeline is
empty or ends in a match stage. -/
theorem c10_pipeline_shape (q : String) :
    ∃ gid aggs,
      buildPipeline q = [Stage.sGroup gid aggs] ∨
      ∃ conds, buildPipeline q = [Stage.sMatch conds, Stage.sGroup gid aggs] := by
  simp only [buildPipeline]
  rcases pipelineBeforeDefault_shape q with hp | ⟨gid, aggs, hp⟩ <;>
    rcases basePipeline_shape q with hb | ⟨c, hb⟩ <;>
      rw [hp, hb]
  · exact ⟨.gnone, _, Or.inl rfl⟩
  · exact ⟨.gnone, _, Or.inr ⟨c, rfl⟩⟩
  · exact ⟨gid, aggs, Or.inl rfl⟩
  · exact ⟨gid, aggs, Or.inr ⟨c, rfl⟩⟩

end LoanQuery

namespace LoanQuery

/-! ## Character-class facts and leftmost-scan lemmas -/

/-- A digit character is not regex whitespace. -/
theorem not_space_of_digit {c : Char} (h : c.isDigit = true) : isSpacePy c = false := by
  cases hs : isSpacePy c
  · rfl
  · exfalso
    unfold isSpacePy at hs
    simp only [Bool.or_eq_true, decide_eq_true_eq] at hs
    rcases hs with ((((rfl | rfl) | rfl) | rfl) | rfl) | rfl <;> exact absurd h (by decide)

/-- An alphabetic character is not regex whitespace. -/
theorem not_space_of_alpha {c : Char} (h : c.isAlpha = true) : isSpacePy c = false := by
  cases hs : isSpacePy c
  · rfl
  · exfalso
    unfold isSpacePy at hs
    simp only [Bool.or_eq_true, decide_eq_true_eq] at hs
    rcases hs with ((((rfl | rfl) | rfl) | rfl) | rfl) | rfl <;> exact absurd h (by decide)

/-- If the date pattern fails at every position before `k` and succeeds at
`k`, the leftmost-search result is the match at `k`. -/
theorem searchDate_eq_at (l : List Char) (k : Nat) (x : Bool × List Char)
    (hfail : ∀ i < k, matchDateAt (l.drop i) = none)
    (hsucc : matchDateAt (l.drop k) = some x) :
    searchDate l = some x := by
  induction k generalizing l with
  | zero =>
    rw [List.drop_zero] at hsucc
    cases l with
    | nil => rw [show matchDateAt [] = none from rfl] at hsucc; exact absurd hsucc (by simp)
    | cons c rest =>
      unfold searchDate
      rw [hsucc]
  | succ k ih =>
    cases l with
    | nil =>
      rw [List.drop_nil, show matchDateAt [] = none from rfl] at hsucc
      exact absurd hsucc (by simp)
    | cons c rest =>
      have h0 := hfail 0 (Nat.succ_pos k)
      rw [List.drop_zero] at h0
      unfold searchDate
      rw [h0]
      refine ih rest (fun i hi => ?_) ?_
      · have := hfail (i + 1) (Nat.succ_lt_succ hi)
        rwa [List.drop_succ_cons] at this
      · rwa [List.drop_succ_cons] at hsucc

/-- If the user-name pattern fails at every position before `k` and succeeds
at `k`, the leftmost-search result is the match at `k`. -/
theorem searchUname_eq_at (l : List Char) (k : Nat) (x : List Char)
    (hfail : ∀ i < k, matchUnameAt (l.drop i) = none)
    (hsucc : matchUnameAt (l.drop k) = some x) :
    searchUname l = some x := by
  induction k generalizing l with
  | zero =>
    rw [List.drop_zero] at hsucc
    cases l with
    | nil => rw [show matchUnameAt [] = none from rfl] at hsucc; exact absurd hsucc (by simp)
    | cons c rest =>
      unfold searchUname
      rw [hsucc]
  | succ k ih =>
    cases l with
    | nil =>
      rw [List.drop_nil, show matchUnameAt [] = none from rfl] at hsucc
      exact absurd hsucc (by simp)
    | cons c rest =>
      have h0 := hfail 0 (Nat.succ_pos k)
      rw [List.drop_zero] at h0
      unfold searchUname
      rw [h0]
      refine ih rest (fun i hi => ?_) ?_
      · have := hfail (i + 1) (Nat.succ_lt_succ hi)
        rwa [List.drop_succ_cons] at this
      · rwa [List.drop_succ_cons] at hsucc

/-- Taking while a predicate holds jumps over a block on which it holds
everywhere. -/
theorem takeWhile_append_all {p : Char → Bool} (w t : List Char)
    (h : ∀ c ∈ w, p c = true) :
    (w ++ t).takeWhile p = w ++ t.takeWhile p := by
  induction w with
  | nil => simp
  | cons c rest ih =>
    have hc := h c (List.mem_cons_self _ _)
    simp [List.takeWhile_cons, hc, ih (fun c2 hc2 => h c2 (List.mem_cons_of_mem _ hc2))]

end LoanQuery

namespace LoanQuery

/-! ## C7 amended: only the leftmost date phrase fires -/

/-- Date-pattern success on an explicit `before <4 digits>` phrase. -/
theorem matchDateAt_before (y1 y2 y3 y4 : Char) (r : List Char)
    (h1 : y1.isDigit = true) (h2 : y2.isDigit = true)
    (h3 : y3.isDigit = true) (h4 : y4.isDigit = true) :
    matchDateAt ('b' :: 'e' :: 'f' :: 'o' :: 'r' :: 'e' :: ' ' :: y1 :: y2 :: y3 :: y4 :: r)
      = some (true, [y1, y2, y3, y4]) := by
  have hstep :
      matchDateAt ('b' :: 'e' :: 'f' :: 'o' :: 'r' :: 'e' :: ' ' :: y1 :: y2 :: y3 :: y4 :: r)
        = matchDateDigits (' ' :: y1 :: y2 :: y3 :: y4 :: r) true := rfl
  rw [hstep]
  unfold matchDateDigits
  simp [List.takeWhile_cons, List.dropWhile_cons, not_space_of_digit h1, h1, h2, h3, h4,
    show isSpacePy ' ' = true from rfl]

/-- Date-pattern success on an explicit `after <4 digits>` phrase. -/
theorem matchDateAt_after (y1 y2 y3 y4 : Char) (r : List Char)
    (h1 : y1.isDigit = true) (h2 : y2.isDigit = true)
    (h3 : y3.isDigit = true) (h4 : y4.isDigit = true) :
    matchDateAt ('a' :: 'f' :: 't' :: 'e' :: 'r' :: ' ' :: y1 :: y2 :: y3 :: y4 :: r)
      = some (false, [y1, y2, y3, y4]) := by
  have hstep :
      matchDateAt ('a' :: 'f' :: 't' :: 'e' :: 'r' :: ' ' :: y1 :: y2 :: y3 :: y4 :: r)
        = matchDateDigits (' ' :: y1 :: y2 :: y3 :: y4 :: r) false := rfl
  rw [hstep]
  unfold matchDateDigits
  simp [List.takeWhile_cons, List.dropWhile_cons, not_space_of_digit h1, h1, h2, h3, h4,
    show isSpacePy ' ' = true from rfl]

/-- The `disbursed_date` entry of the built match dict is exactly the image
of the leftmost date-pattern match (no other rule writes that key). -/
theorem matchConds_lookup_date (q : String) :
    (matchConds q).lookup "disbursed_date" =
      (searchDate q.data).map (fun p =>
        MCond.ops [(if p.1 then "$lt" else "$gte",
                    Value.vStr (toString (digitsToNat p.2) ++ "-01-01"))]) := by
  unfold matchConds
  rcases hR : searchRegion q.data with _ | w <;>
    rcases hC : searchCurrency q.data with _ | cw <;>
      rcases hD : searchDate q.data with _ | ⟨b, ds⟩ <;>
        split_ifs <;> rfl

/-- C7 amended: only the leftmost `(before|after)\s+(\d{4})` phrase fires.
When the leftmost date phrase of the query is `before <digits>` the match
dict carries a `$lt` condition on `disbursed_date`, and when it is
`after <digits>` a `$gte` condition, in both cases with operand
`str(int(digits)) + "-01-01"`; any later date phrase is ignored. -/
theorem c7_amended_leftmost_date_phrase :
    (∀ (p r : List Char) (q : String) (y1 y2 y3 y4 : Char),
      q.data = p ++ 'b' :: 'e' :: 'f' :: 'o' :: 'r' :: 'e' :: ' ' :: y1 :: y2 :: y3 :: y4 :: r →
      y1.isDigit = true → y2.isDigit = true → y3.isDigit = true → y4.isDigit = true →
      (∀ i < p.length, matchDateAt (q.data.drop i) = none) →
      (matchConds q).lookup "disbursed_date" =
        some (MCond.ops [("$lt",
          Value.vStr (toString (digitsToNat [y1, y2, y3, y4]) ++ "-01-01"))])) ∧
    (∀ (p r : List Char) (q : String) (y1 y2 y3 y4 : Char),
      q.data = p ++ 'a' :: 'f' :: 't' :: 'e' :: 'r' :: ' ' :: y1 :: y2 :: y3 :: y4 :: r →
      y1.isDigit = true → y2.isDigit = true → y3.isDigit = true → y4.isDigit = true →
      (∀ i < p.length, matchDateAt (q.data.drop i) = none) →
      (matchConds q).lookup "disbursed_date" =
        some (MCond.ops [("$gte",
          Value.vStr (toString (digitsToNat [y1, y2, y3, y4]) ++ "-01-01"))])) := by
  constructor
  · intro p r q y1 y2 y3 y4 hq h1 h2 h3 h4 hleft
    have hm : matchDateAt (q.data.drop p.length) = some (true, [y1, y2, y3, y4]) := by
      rw [hq, List.drop_left]
      exact matchDateAt_before y1 y2 y3 y4 r h1 h2 h3 h4
    have hs := searchDate_eq_at q.data p.length _ hleft hm
    rw [matchConds_lookup_date, hs]
    rfl
  · intro p r q y1 y2 y3 y4 hq h1 h2 h3 h4 hleft
    have hm : matchDateAt (q.data.drop p.length) = some (false, [y1, y2, y3, y4]) := by
      rw [hq, List.drop_left]
      exact matchDateAt_after y1 y2 y3 y4 r h1 h2 h3 h4
    have hs := searchDate_eq_at q.data p.length _ hleft hm
    rw [matchConds_lookup_date, hs]
    rfl

/-- Witness for C7 amended: `"loans before 2021"` produces a `$lt` condition
and `"loans disbursed after 2023"` (the spec scenario) a `$gte` condition,
both on `disbursed_date` with the `YYYY-01-01` operand. -/
theorem c7_amended_witness :
    (matchConds "loans before 2021").lookup "disbursed_date" =
      some (MCond.ops [("$lt", Value.vStr "2021-01-01")]) ∧
    (matchConds "loans disbursed after 2023").lookup "disbursed_date" =
      some (MCond.ops [("$gte", Value.vStr "2023-01-01")]) :=
  ⟨c7_amended_leftmost_date_phrase.1 "loans ".data [] "loans before 2021"
     '2' '0' '2' '1' (by decide) (by decide) (by decide) (by decide) (by decide) (by decide),
   c7_amended_leftmost_date_phrase.2 "loans disbursed ".data [] "loans disbursed after 2023"
     '2' '0' '2' '3' (by decide) (by decide) (by decide) (by decide) (by decide) (by decide)⟩

end LoanQuery

namespace LoanQuery

/-! ## C8: the personal-name capture -/

/-- Dropping the length of a cons-headed left block of an append. -/
theorem drop_len_cons_append (c0 : Char) (w' x : List Char) :
    ((c0 :: w') ++ x).drop (w'.length + 1) = x := by
  rw [show w'.length + 1 = (c0 :: w').length from rfl, List.drop_left]

/-- Taking the length of a cons-headed left block of an append. -/
theorem take_len_cons_append (c0 : Char) (w' x : List Char) :
    ((c0 :: w') ++ x).take (w'.length + 1) = c0 :: w' := by
  rw [show w'.length + 1 = (c0 :: w').length from rfl, List.take_left]

/-- The user-name pattern, applied right after `for` to a single space, a
non-empty run of letters-and-spaces starting with a letter, and one of the
three terminators (`end of string`, a question mark, or a space followed by a
character outside the class), captures exactly that run. -/
theorem matchUname_shape (c0 : Char) (w' t : List Char)
    (hAlpha : c0.isAlpha = true)
    (hclass : ∀ c ∈ c0 :: w', isNameClass c = true)
    (ht : t = [] ∨ (∃ r, t = '?' :: r) ∨
          (∃ c r, t = ' ' :: c :: r ∧ isNameClass c = false ∧ c ≠ '?')) :
    matchUnameAfterFor (' ' :: ((c0 :: w') ++ t)) = some (c0 :: w') := by
  have hns : isSpacePy c0 = false := not_space_of_alpha hAlpha
  have ha : ((' ' :: ((c0 :: w') ++ t)).takeWhile isSpacePy).length = 1 := by
    simp [List.takeWhile_cons, List.cons_append, hns, show isSpacePy ' ' = true by decide]
  show unameTryWs (' ' :: ((c0 :: w') ++ t))
      (((' ' :: ((c0 :: w') ++ t)).takeWhile isSpacePy).length) = some (c0 :: w')
  rw [ha]
  show (match unameTryGroup ((c0 :: w') ++ t) ((((c0 :: w') ++ t).takeWhile isNameClass).length) with
        | some cap => some cap
        | none => unameTryWs (' ' :: ((c0 :: w') ++ t)) 0) = some (c0 :: w')
  rcases ht with rfl | ⟨r, rfl⟩ | ⟨c, r, rfl, hc, hne⟩
  · have hm : (((c0 :: w') ++ ([] : List Char)).takeWhile isNameClass).length = w'.length + 1 := by
      rw [takeWhile_append_all _ _ hclass]
      simp
    rw [hm]
    have hg : unameTryGroup ((c0 :: w') ++ ([] : List Char)) (w'.length + 1) = some (c0 :: w') := by
      unfold unameTryGroup
      rw [drop_len_cons_append, take_len_cons_append]
      rfl
    rw [hg]
  · have hm : (((c0 :: w') ++ '?' :: r).takeWhile isNameClass).length = w'.length + 1 := by
      rw [takeWhile_append_all _ _ hclass]
      simp [List.takeWhile_cons, show isNameClass '?' = false by decide]
    rw [hm]
    have hg : unameTryGroup ((c0 :: w') ++ '?' :: r) (w'.length + 1) = some (c0 :: w') := by
      unfold unameTryGroup
      rw [drop_len_cons_append, take_len_cons_append]
      rfl
    rw [hg]
  · have hsp : isSpacePy c = false := by
      cases hsp' : isSpacePy c
      · rfl
      · unfold isNameClass at hc
        rw [hsp'] at hc
        simp at hc
    have htermc : unameTermOk (c :: r) = false := by
      unfold unameTermOk
      simp [hne, hsp]
    have hm : (((c0 :: w') ++ ' ' :: c :: r).takeWhile isNameClass).length = w'.length + 1 + 1 := by
      rw [takeWhile_append_all _ _ hclass]
      simp [List.takeWhile_cons, show isNameClass ' ' = true by decide, hc]
    rw [hm]
    have hg : unameTryGroup ((c0 :: w') ++ ' ' :: c :: r) (w'.length + 1 + 1) = some (c0 :: w') := by
      unfold unameTryGroup
      have hd2 : ((c0 :: w') ++ ' ' :: c :: r).drop (w'.length + 1 + 1) = c :: r := by
        rw [show (c0 :: w') ++ ' ' :: c :: r = ((c0 :: w') ++ [' ']) ++ c :: r by simp,
          show w'.length + 1 + 1 = ((c0 :: w') ++ [' ']).length by simp,
          List.drop_left]
      rw [hd2, htermc]
      rw [if_neg Bool.false_ne_true]
      unfold unameTryGroup
      rw [drop_len_cons_append, take_len_cons_append]
      rfl
    rw [hg]

/-- C8: for a query of the form `<prefix> for <name> <terminator>`, where the
name is a non-empty run of alphabetic characters and spaces starting with a
letter, the terminator is a question mark, the end of the string, or a
whitespace boundary before a non-name character, and the `for` phrase shown
is the leftmost one matched, the filter map stores the trimmed captured name
under key `user_name`. -/
theorem c8_user_name_capture (p : List Char) (c0 : Char) (w' t : List Char) (q : String)
    (hq : q.data = p ++ 'f' :: 'o' :: 'r' :: ' ' :: ((c0 :: w') ++ t))
    (hAlpha : c0.isAlpha = true)
    (hclass : ∀ c ∈ c0 :: w', isNameClass c = true)
    (ht : t = [] ∨ (∃ r, t = '?' :: r) ∨
          (∃ c r, t = ' ' :: c :: r ∧ isNameClass c = false ∧ c ≠ '?'))
    (hleft : ∀ i < p.length, matchUnameAt (q.data.drop i) = none) :
    (parseFilters q).lookup "user_name" = some (String.mk (pyStrip (c0 :: w'))) := by
  have hm : matchUnameAt (q.data.drop p.length) = some (c0 :: w') := by
    rw [hq, List.drop_left]
    exact matchUname_shape c0 w' t hAlpha hclass ht
  have hs := searchUname_eq_at q.data p.length _ hleft hm
  unfold parseFilters
  rw [hs]
  rfl

/-- Witness for C8: `"loans for Juan Perez?"` stores `user_name = "Juan
Perez"` (multi-token capture, stopped by the question mark, trimmed). -/
theorem c8_witness :
    (parseFilters "loans for Juan Perez?").lookup "user_name" = some "Juan Perez" :=
  c8_user_name_capture "loans ".data 'J' "uan Perez".data ['?'] "loans for Juan Perez?"
    (by decide) (by decide) (by decide) (Or.inr (Or.inl ⟨[], rfl⟩)) (by decide)

end LoanQuery
